import Mathlib

/-
Verification of the git-push orchestrator in `main.py`.

The Python program shells out to a terminal resource and touches the
filesystem (`os.path.exists`, `os.makedirs`, `os.chdir`).  We embed it
shallowly: the external collaborators become an abstract `Terminal`
(a state machine over an arbitrary state type `σ`, whose `execute` may
also fail, modelling a raised exception) and a `World` carrying the
filesystem-existence predicate, the process working directory, the
terminal state and an event trace.  Each Python step function becomes a
total Lean function returning (structured result, new world); the
`try/except` blocks of the source become the `.error` branches.
-/

/- ## String utilities mirroring the Python expressions -/

/-- Python `s.split(sep)` for a one-character separator: `"" ↦ [""]`,
separators at the ends produce empty segments. -/
def splitChar (sep : Char) : List Char → List (List Char)
  | [] => [[]]
  | c :: rest =>
    if c = sep then [] :: splitChar sep rest
    else
      match splitChar sep rest with
      | [] => [[c]]
      | g :: gs => (c :: g) :: gs

/-- Python `s.replace(".git", "")`: remove every left-to-right,
non-overlapping occurrence of `".git"` (the only pattern the source uses). -/
def removeGit : List Char → List Char
  | '.' :: 'g' :: 'i' :: 't' :: rest => removeGit rest
  | c :: rest => c :: removeGit rest
  | [] => []

/-- Python `pat in s` (substring test), on character lists. -/
def containsSub (pat : List Char) : List Char → Bool
  | [] => pat.isEmpty
  | c :: rest => List.isPrefixOf pat (c :: rest) || containsSub pat rest

/-- Python `pat in s` on strings. -/
def strContains (s pat : String) : Bool :=
  containsSub pat.toList s.toList

/-- Characters of `repo_url.split("/")[-1]`. -/
def lastSegmentChars (url : String) : List Char :=
  (splitChar '/' url.toList).getLastD []

/-- The URL's last `/`-separated path segment. -/
def lastSegment (url : String) : String :=
  String.mk (lastSegmentChars url)

/-- The source's derived repository name:
`repo_url.split("/")[-1].replace(".git", "")` (lines 52 and 170). -/
def derivedRepoName (url : String) : String :=
  String.mk (removeGit (lastSegmentChars url))

/-- Modelled from the spec's words, for comparison with `derivedRepoName`:
the last path segment with one trailing `".git"` suffix stripped. -/
def stripDotGit (seg : List Char) : List Char :=
  if List.isSuffixOf ('.' :: 'g' :: 'i' :: 't' :: []) seg then
    seg.take (seg.length - 4)
  else seg

/-- Modelled from the spec's words: repository name obtained by stripping a
trailing `".git"` suffix from the last path segment. -/
def specStripGitName (url : String) : String :=
  String.mk (stripDotGit (lastSegmentChars url))

/-- Python `s.strip()`: remove leading and trailing whitespace. -/
def pyStrip (s : String) : String :=
  String.mk (((s.toList.dropWhile Char.isWhitespace).reverse.dropWhile
    Char.isWhitespace).reverse)

/-- Python `os.path.join(a, b)` for a relative second component. -/
def pathJoin (a b : String) : String := a ++ "/" ++ b

/-- Python truthiness of an optional string (`None` and `""` are falsy). -/
def optTruthy : Option String → Bool
  | none => false
  | some s => s != ""

/-- Python truthiness of an optional list (`None` and `[]` are falsy);
this is the `if specific_files:` check of `stage_changes`. -/
def listTruthy : Option (List String) → Bool
  | none => false
  | some [] => false
  | some (_ :: _) => true

/- ## The external world: filesystem, working directory, terminal -/

/-- Result of one completed shell command: exit status and captured output. -/
structure ExecResult where
  returncode : Int
  stdout : String
  stderr : String
  deriving Repr, DecidableEq

/-- Observable events: a command executed in a working directory
(`terminal.execute`), a directory change (`os.chdir`) and a directory
creation (`os.makedirs`). -/
inductive Ev where
  | exec (cwd : String) (cmd : String)
  | cd (path : String)
  | mkdir (path : String)
  deriving Repr, DecidableEq

/-- The terminal collaborator: given the working directory, a command line
and its private state, it either returns a result and a new state or fails
(a raised exception, carrying the exception message). -/
structure Terminal (σ : Type) where
  execute : String → String → σ → Except String (ExecResult × σ)

/-- Process-visible state threaded through the steps: which paths exist,
the current working directory, the terminal's state, and the event trace. -/
structure World (σ : Type) where
  fs : String → Bool
  cwd : String
  st : σ
  log : List Ev

/-- Exception message of a failed `os.chdir`. -/
def noSuchFileMsg (p : String) : String :=
  "No such file or directory: " ++ p

/-- Python `os.chdir(p)`: succeeds iff the path exists, else raises. -/
def chdir (w : World σ) (p : String) : Except String (World σ) :=
  if w.fs p then .ok { w with cwd := p, log := w.log ++ [Ev.cd p] }
  else .error (noSuchFileMsg p)

/-- Python `os.makedirs(p)`: afterwards `p` exists. -/
def makedirs (w : World σ) (p : String) : World σ :=
  { w with fs := fun q => q == p || w.fs q, log := w.log ++ [Ev.mkdir p] }

/-- Python `await terminal.execute(cmd)`: runs `cmd` in the current working
directory, logging the event; a raised exception is the `.error` branch. -/
def runCmd (T : Terminal σ) (w : World σ) (cmd : String) :
    Except String (ExecResult × World σ) :=
  match T.execute w.cwd cmd w.st with
  | .ok (r, s) => .ok (r, { w with st := s, log := w.log ++ [Ev.exec w.cwd cmd] })
  | .error e => .error e

/- ## Structured step results (the Python dicts; absent keys are `none`) -/

/-- Result dict of `check_git_config`. -/
structure GitConfigResult where
  is_configured : Bool
  git_installed : Bool
  username : Option String := none
  email : Option String := none
  error : Option String := none
  deriving Repr, DecidableEq

/-- Result dict of `clone_repository`. -/
structure CloneResult where
  success : Bool
  action : Option String := none
  repo_path : Option String := none
  output : Option String := none
  error : Option String := none
  deriving Repr, DecidableEq

/-- One entry of the per-file `results` list built by `stage_changes`. -/
structure FileAddResult where
  file : String
  success : Bool
  output : String
  error : Option String
  deriving Repr, DecidableEq

/-- Result dict of `stage_changes`. -/
structure StageResult where
  success : Bool
  action : Option String := none
  files : Option (List String) := none
  results : Option (List FileAddResult) := none
  output : Option String := none
  error : Option String := none
  deriving Repr, DecidableEq

/-- Result dict of `commit_changes`. -/
structure CommitResult where
  success : Bool
  action : Option String := none
  message : Option String := none
  commit_message : Option String := none
  output : Option String := none
  error : Option String := none
  deriving Repr, DecidableEq

/-- Result dict of `push_changes`. -/
structure PushResult where
  success : Bool
  action : Option String := none
  branch : Option String := none
  output : Option String := none
  error : Option String := none
  deriving Repr, DecidableEq

/- ## The five step functions (main.py lines 129-294) -/

/-- `check_git_config` (lines 129-160): `git --version`, then
`git config user.name` and `git config user.email`; configured iff both
values are truthy after `strip()`. -/
def check_git_config (T : Terminal σ) (w : World σ) : GitConfigResult × World σ :=
  match runCmd T w "git --version" with
  | .error e => ({ is_configured := false, git_installed := false, error := some e }, w)
  | .ok (result, w1) =>
    if result.returncode != 0 then
      ({ is_configured := false, git_installed := false,
         error := some "Git is not installed" }, w1)
    else
      match runCmd T w1 "git config user.name" with
      | .error e => ({ is_configured := false, git_installed := false, error := some e }, w1)
      | .ok (username_result, w2) =>
        let username : Option String :=
          if username_result.returncode == 0 then some (pyStrip username_result.stdout) else none
        match runCmd T w2 "git config user.email" with
        | .error e => ({ is_configured := false, git_installed := false, error := some e }, w2)
        | .ok (email_result, w3) =>
          let email : Option String :=
            if email_result.returncode == 0 then some (pyStrip email_result.stdout) else none
          ({ is_configured := optTruthy username && optTruthy email,
             git_installed := true, username := username, email := email }, w3)

/-- `clone_repository` (lines 162-201): create the target directory if
missing, derive the repository path; pull if it exists, clone otherwise. -/
def clone_repository (T : Terminal σ) (w : World σ) (repo_url directory : String) :
    CloneResult × World σ :=
  let w0 := if w.fs directory then w else makedirs w directory
  let repo_path := pathJoin directory (derivedRepoName repo_url)
  if w0.fs repo_path then
    match chdir w0 repo_path with
    | .error e => ({ success := false, error := some e }, w0)
    | .ok w1 =>
      match runCmd T w1 "git pull" with
      | .error e => ({ success := false, error := some e }, w1)
      | .ok (pull_result, w2) =>
        ({ success := pull_result.returncode == 0, action := some "pulled",
           repo_path := some repo_path, output := some pull_result.stdout,
           error := if pull_result.returncode != 0 then some pull_result.stderr else none },
         w2)
  else
    match chdir w0 directory with
    | .error e => ({ success := false, error := some e }, w0)
    | .ok w1 =>
      match runCmd T w1 ("git clone " ++ repo_url) with
      | .error e => ({ success := false, error := some e }, w1)
      | .ok (clone_result, w2) =>
        ({ success := clone_result.returncode == 0, action := some "cloned",
           repo_path := some repo_path, output := some clone_result.stdout,
           error := if clone_result.returncode != 0 then some clone_result.stderr else none },
         w2)

/-- The `for file in specific_files` loop of `stage_changes` (lines 213-221):
one `git add` per file; a raised exception aborts the loop. -/
def addFiles (T : Terminal σ) : World σ → List String →
    Except (String × World σ) (List FileAddResult × World σ)
  | w, [] => .ok ([], w)
  | w, f :: rest =>
    match runCmd T w ("git add " ++ f) with
    | .error e => .error (e, w)
    | .ok (result, w1) =>
      match addFiles T w1 rest with
      | .error ew => .error ew
      | .ok (rs, w2) =>
        .ok ({ file := f, success := result.returncode == 0,
               output := result.stdout,
               error := if result.returncode != 0 then some result.stderr else none } :: rs,
             w2)

/-- `stage_changes` (lines 203-243): `chdir`, a `git status` snapshot, then
either one `git add` per listed file or a single `git add .`. -/
def stage_changes (T : Terminal σ) (w : World σ) (repo_path : String)
    (specific_files : Option (List String)) : StageResult × World σ :=
  match chdir w repo_path with
  | .error e => ({ success := false, error := some e }, w)
  | .ok w1 =>
    match runCmd T w1 "git status" with
    | .error e => ({ success := false, error := some e }, w1)
    | .ok (_status_before, w2) =>
      if listTruthy specific_files then
        match addFiles T w2 (specific_files.getD []) with
        | .error (e, w3) => ({ success := false, error := some e }, w3)
        | .ok (results, w3) =>
          ({ success := results.all (fun r => r.success),
             action := some "staged_specific_files",
             files := specific_files, results := some results }, w3)
      else
        match runCmd T w2 "git add ." with
        | .error e => ({ success := false, error := some e }, w2)
        | .ok (result, w3) =>
          ({ success := result.returncode == 0, action := some "staged_all",
             output := some result.stdout,
             error := if result.returncode != 0 then some result.stderr else none }, w3)

/-- `commit_changes` (lines 245-273): `chdir`, check `git status` for the
`"nothing to commit"` marker, else `git commit -m "<message>"`. -/
def commit_changes (T : Terminal σ) (w : World σ) (repo_path commit_message : String) :
    CommitResult × World σ :=
  match chdir w repo_path with
  | .error e => ({ success := false, error := some e }, w)
  | .ok w1 =>
    match runCmd T w1 "git status" with
    | .error e => ({ success := false, error := some e }, w1)
    | .ok (status_result, w2) =>
      if strContains status_result.stdout "nothing to commit" then
        ({ success := true, action := some "no_changes",
           message := some "No changes to commit" }, w2)
      else
        match runCmd T w2 ("git commit -m \"" ++ commit_message ++ "\"") with
        | .error e => ({ success := false, error := some e }, w2)
        | .ok (result, w3) =>
          ({ success := result.returncode == 0, action := some "committed",
             commit_message := some commit_message, output := some result.stdout,
             error := if result.returncode != 0 then some result.stderr else none }, w3)

/-- `push_changes` (lines 275-294): `chdir`, then `git push origin <branch>`. -/
def push_changes (T : Terminal σ) (w : World σ) (repo_path branch_name : String) :
    PushResult × World σ :=
  match chdir w repo_path with
  | .error e => ({ success := false, error := some e }, w)
  | .ok w1 =>
    match runCmd T w1 ("git push origin " ++ branch_name) with
    | .error e => ({ success := false, error := some e }, w1)
    | .ok (result, w2) =>
      ({ success := result.returncode == 0, action := some "pushed",
         branch := some branch_name, output := some result.stdout,
         error := if result.returncode != 0 then some result.stderr else none }, w2)

/- ## The orchestrator `github_push` (lines 16-127) -/

/-- The `PushRequest` body; `none` models an absent (or JSON-null) key. -/
structure PushRequest where
  repo_url : Option String := none
  clone_directory : Option String := none
  commit_message : Option String := none
  branch_name : Option String := none
  specific_files : Option (List String) := none

/-- The `details` payload of a response: one step's result on a controlled
failure, or the full mapping on success (`none` in the clone position is the
`"Skipped"` marker). -/
inductive Details where
  | config (g : GitConfigResult)
  | clone (c : CloneResult)
  | stage (s : StageResult)
  | commit (c : CommitResult)
  | push (p : PushResult)
  | full (git_config : GitConfigResult) (clone : Option CloneResult)
      (stage : StageResult) (commit : CommitResult) (push : PushResult)
  deriving Repr, DecidableEq

/-- HTTP-style response body (the 500 branch for a malformed request body is
outside this typed model, so `details` is always present). -/
structure Response where
  status : Nat
  success : Bool
  message : String
  details : Details
  deriving Repr, DecidableEq

/-- Steps 3-5 of `github_push` (lines 68-117): stage, commit, push on the
already-determined `repo_path`, short-circuiting on the first failure. -/
def afterClone (T : Terminal σ) (w : World σ) (git_config : GitConfigResult)
    (cloneOpt : Option CloneResult) (repo_path : String) (repo_url : Option String)
    (specific_files : Option (List String)) (commit_message branch_name : String) :
    Response × World σ :=
  let (stage_result, w1) := stage_changes T w repo_path specific_files
  if stage_result.success then
    let (commit_result, w2) := commit_changes T w1 repo_path commit_message
    if commit_result.success then
      let (push_result, w3) := push_changes T w2 repo_path branch_name
      if push_result.success then
        ({ status := 200, success := true,
           message := "Successfully pushed changes to " ++
             (if optTruthy repo_url then repo_url.getD "" else "repository") ++
             " on branch " ++ branch_name,
           details := Details.full git_config cloneOpt stage_result commit_result
             push_result }, w3)
      else
        ({ status := 400, success := false, message := "Failed to push changes",
           details := Details.push push_result }, w3)
    else
      ({ status := 400, success := false, message := "Failed to commit changes",
         details := Details.commit commit_result }, w2)
  else
    ({ status := 400, success := false, message := "Failed to stage changes",
       details := Details.stage stage_result }, w1)

/-- `github_push` (lines 16-127): config check, optional clone-or-pull
(skipped when `repo_url` is falsy, in which case `clone_directory` is the
repository path), then stage, commit, push. -/
def github_push (T : Terminal σ) (w : World σ) (req : PushRequest) :
    Response × World σ :=
  let clone_directory := req.clone_directory.getD w.cwd
  let commit_message := req.commit_message.getD "Automated commit via MCP agent"
  let branch_name := req.branch_name.getD "main"
  let (git_config, w1) := check_git_config T w
  if git_config.is_configured then
    if optTruthy req.repo_url then
      let (clone_result, w2) := clone_repository T w1 (req.repo_url.getD "") clone_directory
      if clone_result.success then
        afterClone T w2 git_config (some clone_result) (clone_result.repo_path.getD "")
          req.repo_url req.specific_files commit_message branch_name
      else
        ({ status := 400, success := false, message := "Failed to clone repository",
           details := Details.clone clone_result }, w2)
    else
      afterClone T w1 git_config none clone_directory req.repo_url req.specific_files
        commit_message branch_name
  else
    ({ status := 400, success := false,
       message := "Git is not properly configured. Please configure Git first.",
       details := Details.config git_config }, w1)

/- ## Auxiliary definitions used by the statements -/

/-- Terminal override changing only what `git status` prints; used to state
that the pre-stage status snapshot is discarded by `stage_changes`. -/
def withStatusOut (T : Terminal σ) (out : String) : Terminal σ :=
  { execute := fun cwd cmd s =>
      if cmd = "git status" then
        match T.execute cwd cmd s with
        | .ok (r, s2) => .ok ({ r with stdout := out }, s2)
        | .error e => .error e
      else T.execute cwd cmd s }

/-- Events a request without `repo_url` is allowed to produce: commands run
from the original working directory or from the repository path, never a
`git pull` or `git clone`; directory changes only into the repository path
(which is `clone_directory`); no directory creation. -/
def EvOkForDirect (origCwd repoPath : String) : Ev → Prop
  | Ev.exec d c => (d = origCwd ∨ d = repoPath) ∧ c ≠ "git pull" ∧ ∀ u, c ≠ "git clone " ++ u
  | Ev.cd q => q = repoPath
  | Ev.mkdir _ => False

/- ## Concrete collaborator instances used by the witnesses -/

/-- Canonical successful command result. -/
def okOut (cmd : String) : ExecResult :=
  { returncode := 0, stdout := "out " ++ cmd, stderr := "" }

/-- Terminal on which every command succeeds. -/
def tGood : Terminal Unit :=
  { execute := fun _ cmd s => .ok (okOut cmd, s) }

/-- Terminal on which every command raises an exception. -/
def tBoom : Terminal Unit :=
  { execute := fun _ _ _ => .error "boom" }

/-- Terminal on which `git add missing.txt` exits nonzero and every other
command succeeds. -/
def tAdd : Terminal Unit :=
  { execute := fun _ cmd s =>
      .ok (if cmd = "git add missing.txt" then
             { returncode := 1, stdout := "",
               stderr := "pathspec missing.txt did not match any files" }
           else okOut cmd, s) }

/-- Terminal on which `git config user.email` exits nonzero (identity unset)
and every other command succeeds. -/
def tNoEmail : Terminal Unit :=
  { execute := fun _ cmd s =>
      .ok (if cmd = "git config user.email" then
             { returncode := 1, stdout := "", stderr := "" }
           else okOut cmd, s) }

/-- Terminal whose state records whether the work tree is dirty: `git status`
reports accordingly, a `git commit -m "msg"` succeeds and cleans the tree. -/
def tRepo : Terminal Bool :=
  { execute := fun _ cmd dirty =>
      if cmd = "git status" then
        .ok ({ returncode := 0,
               stdout := if dirty then "On branch main, changes to be committed"
                         else "nothing to commit, working tree clean",
               stderr := "" }, dirty)
      else if cmd = "git commit -m \"msg\"" then
        .ok ({ returncode := 0, stdout := "", stderr := "" }, false)
      else .ok ({ returncode := 0, stdout := "", stderr := "" }, dirty) }

/-- Terminal on which `git status` prints `out`, everything succeeds. -/
def tStatus (out : String) : Terminal Unit :=
  { execute := fun _ cmd s =>
      .ok (if cmd = "git status" then { returncode := 0, stdout := out, stderr := "" }
           else okOut cmd, s) }

/-- World in which `/work`, `/work/app` and `/repo` exist. -/
def wHome : World Unit :=
  { fs := fun p => p == "/work" || p == "/work/app" || p == "/repo",
    cwd := "/home", st := (), log := [] }

/-- World in which only `/work` exists. -/
def wNoRepo : World Unit :=
  { fs := fun p => p == "/work", cwd := "/home", st := (), log := [] }

/-- World with a dirty `tRepo` repository at `/repo`. -/
def wRepo : World Bool :=
  { fs := fun p => p == "/repo", cwd := "/home", st := true, log := [] }

/- ## Lemmas about the repository-name derivation -/

theorem removeGit_step (c : Char) (r : List Char)
    (h : List.isPrefixOf ('.' :: 'g' :: 'i' :: 't' :: []) (c :: r) = false) :
    removeGit (c :: r) = c :: removeGit r := by
  rw [removeGit.eq_def]
  split
  · rename_i rest heq
    rw [show c :: r = '.' :: 'g' :: 'i' :: 't' :: rest from heq] at h
    simp [List.isPrefixOf] at h
  · rename_i c2 r2 hne heq
    injection heq with h1 h2
    subst h1; subst h2; rfl
  · rename_i heq
    exact absurd heq (List.cons_ne_nil c r)

theorem removeGit_of_not_sub : ∀ (s : List Char),
    containsSub ('.' :: 'g' :: 'i' :: 't' :: []) s = false → removeGit s = s := by
  intro s
  induction s with
  | nil => intro _; rfl
  | cons c r ih =>
    intro h
    simp only [containsSub, Bool.or_eq_false_iff] at h
    rw [removeGit_step c r h.1, ih h.2]

theorem removeGit_append_git : ∀ (t : List Char),
    containsSub ('.' :: 'g' :: 'i' :: 't' :: []) t = false →
    removeGit (t ++ '.' :: 'g' :: 'i' :: 't' :: []) = t := by
  intro t
  induction t with
  | nil => intro _; rfl
  | cons c t' ih =>
    intro h
    simp only [containsSub, Bool.or_eq_false_iff] at h
    have hpre : List.isPrefixOf ('.' :: 'g' :: 'i' :: 't' :: [])
        (c :: (t' ++ '.' :: 'g' :: 'i' :: 't' :: [])) = false := by
      rcases t' with _ | ⟨a, _ | ⟨b, _ | ⟨d, t''⟩⟩⟩
      · simp [List.isPrefixOf]
      · simp [List.isPrefixOf]
      · simp [List.isPrefixOf]
      · rcases h with ⟨h1, -⟩
        by_contra hx
        simp only [Bool.not_eq_false] at hx
        simp only [List.cons_append, List.isPrefixOf, Bool.and_eq_true, beq_iff_eq] at hx
        obtain ⟨rfl, rfl, rfl, rfl, -⟩ := hx
        simp [List.isPrefixOf] at h1
    rw [List.cons_append, removeGit_step _ _ hpre, ih h.2]

/- ## Distinguishing command strings by their first seven characters -/

theorem take7_append_of_le (l1 l2 : List Char) (h : 7 ≤ l1.length) :
    (l1 ++ l2).take 7 = l1.take 7 := by
  rw [List.take_append_eq_append_take, Nat.sub_eq_zero_of_le h, List.take_zero,
    List.append_nil]

theorem str_ne_of_take7 (a b : String) (h : a.data.take 7 ≠ b.data.take 7) : a ≠ b :=
  fun e => h (by rw [e])

theorem ne_git_clone_cmd (c : String)
    (h : c.data.take 7 ≠ 'g' :: 'i' :: 't' :: ' ' :: 'c' :: 'l' :: 'o' :: []) :
    ∀ u, c ≠ "git clone " ++ u := by
  intro u e
  apply h
  rw [e, String.data_append, take7_append_of_le _ _ (by decide)]
  rfl

theorem add_cmd_ne_pull (f : String) : ("git add " ++ f) ≠ "git pull" := by
  apply str_ne_of_take7
  rw [String.data_append, take7_append_of_le _ _ (by decide)]
  decide

theorem add_cmd_ne_clone (f : String) : ∀ u, ("git add " ++ f) ≠ "git clone " ++ u := by
  apply ne_git_clone_cmd
  rw [String.data_append, take7_append_of_le _ _ (by decide)]
  decide

theorem add_cmd_ne_status (f : String) : ("git add " ++ f) ≠ "git status" := by
  apply str_ne_of_take7
  rw [String.data_append, take7_append_of_le _ _ (by decide)]
  decide

theorem commit_cmd_ne_pull (m : String) :
    ("git commit -m \"" ++ m ++ "\"") ≠ "git pull" := by
  apply str_ne_of_take7
  rw [String.data_append, String.data_append, List.append_assoc,
    take7_append_of_le _ _ (by decide)]
  decide

theorem commit_cmd_ne_clone (m : String) :
    ∀ u, ("git commit -m \"" ++ m ++ "\"") ≠ "git clone " ++ u := by
  apply ne_git_clone_cmd
  rw [String.data_append, String.data_append, List.append_assoc,
    take7_append_of_le _ _ (by decide)]
  decide

theorem push_cmd_ne_pull (b : String) : ("git push origin " ++ b) ≠ "git pull" := by
  apply str_ne_of_take7
  rw [String.data_append, take7_append_of_le _ _ (by decide)]
  decide

theorem push_cmd_ne_clone (b : String) :
    ∀ u, ("git push origin " ++ b) ≠ "git clone " ++ u := by
  apply ne_git_clone_cmd
  rw [String.data_append, take7_append_of_le _ _ (by decide)]
  decide

theorem success_msg_ne_clone_fail (x b : String) :
    ("Successfully pushed changes to " ++ x ++ " on branch " ++ b) ≠
      "Failed to clone repository" := by
  apply str_ne_of_take7
  rw [String.data_append, String.data_append, String.data_append,
    List.append_assoc, List.append_assoc, take7_append_of_le _ _ (by decide)]
  decide

/- ## Event-trace lemmas for the step functions -/

theorem check_git_config_log (T : Terminal σ) (w : World σ) :
    ∀ e ∈ (check_git_config T w).2.log, e ∈ w.log ∨
      ∃ c, e = Ev.exec w.cwd c ∧
        (c = "git --version" ∨ c = "git config user.name" ∨ c = "git config user.email") := by
  intro e he
  rcases hv : T.execute w.cwd "git --version" w.st with ev | ⟨rv, sv⟩ <;>
    simp only [check_git_config, runCmd, hv] at he
  · exact Or.inl he
  · cases hrv : (rv.returncode != 0) <;> simp only [hrv, if_true, if_false, Bool.false_eq_true] at he
    case true =>
      simp only [List.mem_append, List.mem_singleton] at he
      rcases he with h | rfl
      · exact Or.inl h
      · exact Or.inr ⟨_, rfl, Or.inl rfl⟩
    case false =>
      rcases hn : T.execute w.cwd "git config user.name" sv with en | ⟨rn, sn⟩ <;>
        simp only [hn] at he
      · simp only [List.mem_append, List.mem_singleton] at he
        rcases he with h | rfl
        · exact Or.inl h
        · exact Or.inr ⟨_, rfl, Or.inl rfl⟩
      · rcases hem : T.execute w.cwd "git config user.email" sn with ee | ⟨re, se⟩ <;>
          simp only [hem] at he
        · simp only [List.mem_append, List.mem_singleton] at he
          rcases he with (h | rfl) | rfl
          · exact Or.inl h
          · exact Or.inr ⟨_, rfl, Or.inl rfl⟩
          · exact Or.inr ⟨_, rfl, Or.inr (Or.inl rfl)⟩
        · simp only [List.mem_append, List.mem_singleton] at he
          rcases he with ((h | rfl) | rfl) | rfl
          · exact Or.inl h
          · exact Or.inr ⟨_, rfl, Or.inl rfl⟩
          · exact Or.inr ⟨_, rfl, Or.inr (Or.inl rfl)⟩
          · exact Or.inr ⟨_, rfl, Or.inr (Or.inr rfl)⟩

theorem addFiles_log (T : Terminal σ) : ∀ (files : List String) (w : World σ),
    (∀ rs w2, addFiles T w files = .ok (rs, w2) →
      ∀ e ∈ w2.log, e ∈ w.log ∨ ∃ f, e = Ev.exec w.cwd ("git add " ++ f)) ∧
    (∀ msg w2, addFiles T w files = .error (msg, w2) →
      ∀ e ∈ w2.log, e ∈ w.log ∨ ∃ f, e = Ev.exec w.cwd ("git add " ++ f)) := by
  intro files
  induction files with
  | nil =>
    intro w
    constructor
    · intro rs w2 h e he
      simp only [addFiles] at h
      cases h
      exact Or.inl he
    · intro msg w2 h e he
      simp only [addFiles] at h
      cases h
  | cons f rest ih =>
    intro w
    constructor
    · intro rs w2 h e he
      rcases hx : T.execute w.cwd ("git add " ++ f) w.st with ex | ⟨r, s1⟩
      · simp only [addFiles, runCmd, hx] at h
        cases h
      · simp only [addFiles, runCmd, hx] at h
        rcases ha : addFiles T
            { w with st := s1, log := w.log ++ [Ev.exec w.cwd ("git add " ++ f)] } rest
          with ⟨msg3, w3⟩ | ⟨rs3, w3⟩
        · rw [ha] at h; cases h
        · rw [ha] at h
          cases h
          have h2 := (ih _).1 _ _ ha e he
          simp only [List.mem_append, List.mem_singleton] at h2
          rcases h2 with (h2 | rfl) | ⟨g, hg⟩
          · exact Or.inl h2
          · exact Or.inr ⟨f, rfl⟩
          · exact Or.inr ⟨g, hg⟩
    · intro msg w2 h e he
      rcases hx : T.execute w.cwd ("git add " ++ f) w.st with ex | ⟨r, s1⟩
      · simp only [addFiles, runCmd, hx] at h
        cases h
        exact Or.inl he
      · simp only [addFiles, runCmd, hx] at h
        rcases ha : addFiles T
            { w with st := s1, log := w.log ++ [Ev.exec w.cwd ("git add " ++ f)] } rest
          with ⟨msg3, w3⟩ | ⟨rs3, w3⟩
        · rw [ha] at h
          cases h
          have h2 := (ih _).2 _ _ ha e he
          simp only [List.mem_append, List.mem_singleton] at h2
          rcases h2 with (h2 | rfl) | ⟨g, hg⟩
          · exact Or.inl h2
          · exact Or.inr ⟨f, rfl⟩
          · exact Or.inr ⟨g, hg⟩
        · rw [ha] at h; cases h

theorem stage_changes_log (T : Terminal σ) (w : World σ) (p : String)
    (sf : Option (List String)) :
    ∀ e ∈ (stage_changes T w p sf).2.log, e ∈ w.log ∨ e = Ev.cd p ∨
      ∃ c, e = Ev.exec p c ∧
        (c = "git status" ∨ c = "git add ." ∨ ∃ f, c = "git add " ++ f) := by
  intro e he
  by_cases hfs : w.fs p
  case neg =>
    simp only [stage_changes, chdir, hfs, if_false, Bool.false_eq_true] at he
    exact Or.inl he
  case pos =>
    simp only [stage_changes, chdir, hfs, if_true] at he
    rcases hst : T.execute p "git status" w.st with es | ⟨r0, s0⟩ <;>
      simp only [runCmd, hst] at he
    · simp only [List.mem_append, List.mem_singleton] at he
      rcases he with h | rfl
      · exact Or.inl h
      · exact Or.inr (Or.inl rfl)
    · cases hl : listTruthy sf <;> simp only [hl, if_true, if_false, Bool.false_eq_true] at he
      case false =>
        rcases hadd : T.execute p "git add ." s0 with ea | ⟨ra, sa⟩ <;>
          simp only [runCmd, hadd] at he <;>
          simp only [List.mem_append, List.mem_singleton] at he
        · rcases he with (h | rfl) | rfl
          · exact Or.inl h
          · exact Or.inr (Or.inl rfl)
          · exact Or.inr (Or.inr ⟨_, rfl, Or.inl rfl⟩)
        · rcases he with ((h | rfl) | rfl) | rfl
          · exact Or.inl h
          · exact Or.inr (Or.inl rfl)
          · exact Or.inr (Or.inr ⟨_, rfl, Or.inl rfl⟩)
          · exact Or.inr (Or.inr ⟨_, rfl, Or.inr (Or.inl rfl)⟩)
      case true =>
        split at he
        case h_1 msg3 w3 ha =>
          have h2 := (addFiles_log T (sf.getD []) _).2 _ _ ha e he
          simp only [List.mem_append, List.mem_singleton] at h2
          rcases h2 with ((h | rfl) | rfl) | ⟨g, hg⟩
          · exact Or.inl h
          · exact Or.inr (Or.inl rfl)
          · exact Or.inr (Or.inr ⟨_, rfl, Or.inl rfl⟩)
          · exact Or.inr (Or.inr ⟨_, hg, Or.inr (Or.inr ⟨g, rfl⟩)⟩)
        case h_2 rs3 w3 ha =>
          have h2 := (addFiles_log T (sf.getD []) _).1 _ _ ha e he
          simp only [List.mem_append, List.mem_singleton] at h2
          rcases h2 with ((h | rfl) | rfl) | ⟨g, hg⟩
          · exact Or.inl h
          · exact Or.inr (Or.inl rfl)
          · exact Or.inr (Or.inr ⟨_, rfl, Or.inl rfl⟩)
          · exact Or.inr (Or.inr ⟨_, hg, Or.inr (Or.inr ⟨g, rfl⟩)⟩)

theorem commit_changes_log (T : Terminal σ) (w : World σ) (p m : String) :
    ∀ e ∈ (commit_changes T w p m).2.log, e ∈ w.log ∨ e = Ev.cd p ∨
      ∃ c, e = Ev.exec p c ∧
        (c = "git status" ∨ c = "git commit -m \"" ++ m ++ "\"") := by
  intro e he
  by_cases hfs : w.fs p
  case neg =>
    simp only [commit_changes, chdir, hfs, if_false, Bool.false_eq_true] at he
    exact Or.inl he
  case pos =>
    simp only [commit_changes, chdir, hfs, if_true] at he
    rcases hst : T.execute p "git status" w.st with es | ⟨r0, s0⟩ <;>
      simp only [runCmd, hst] at he
    · simp only [List.mem_append, List.mem_singleton] at he
      rcases he with h | rfl
      · exact Or.inl h
      · exact Or.inr (Or.inl rfl)
    · cases hm : strContains r0.stdout "nothing to commit" <;>
        simp only [hm, if_true, if_false, Bool.false_eq_true] at he
      case true =>
        simp only [List.mem_append, List.mem_singleton] at he
        rcases he with (h | rfl) | rfl
        · exact Or.inl h
        · exact Or.inr (Or.inl rfl)
        · exact Or.inr (Or.inr ⟨_, rfl, Or.inl rfl⟩)
      case false =>
        rcases hc : T.execute p ("git commit -m \"" ++ m ++ "\"") s0 with ec | ⟨rc, sc⟩ <;>
          simp only [runCmd, hc] at he <;>
          simp only [List.mem_append, List.mem_singleton] at he
        · rcases he with (h | rfl) | rfl
          · exact Or.inl h
          · exact Or.inr (Or.inl rfl)
          · exact Or.inr (Or.inr ⟨_, rfl, Or.inl rfl⟩)
        · rcases he with ((h | rfl) | rfl) | rfl
          · exact Or.inl h
          · exact Or.inr (Or.inl rfl)
          · exact Or.inr (Or.inr ⟨_, rfl, Or.inl rfl⟩)
          · exact Or.inr (Or.inr ⟨_, rfl, Or.inr rfl⟩)

theorem push_changes_log (T : Terminal σ) (w : World σ) (p b : String) :
    ∀ e ∈ (push_changes T w p b).2.log, e ∈ w.log ∨ e = Ev.cd p ∨
      e = Ev.exec p ("git push origin " ++ b) := by
  intro e he
  by_cases hfs : w.fs p
  case neg =>
    simp only [push_changes, chdir, hfs, if_false, Bool.false_eq_true] at he
    exact Or.inl he
  case pos =>
    simp only [push_changes, chdir, hfs, if_true] at he
    rcases hpu : T.execute p ("git push origin " ++ b) w.st with es | ⟨r0, s0⟩ <;>
      simp only [runCmd, hpu] at he <;>
      simp only [List.mem_append, List.mem_singleton] at he
    · rcases he with h | rfl
      · exact Or.inl h
      · exact Or.inr (Or.inl rfl)
    · rcases he with (h | rfl) | rfl
      · exact Or.inl h
      · exact Or.inr (Or.inl rfl)
      · exact Or.inr (Or.inr rfl)

theorem afterClone_log (T : Terminal σ) (w : World σ) (g : GitConfigResult)
    (co : Option CloneResult) (rp : String) (ru : Option String)
    (sf : Option (List String)) (cm bn : String) :
    ∀ e ∈ (afterClone T w g co rp ru sf cm bn).2.log, e ∈ w.log ∨ e = Ev.cd rp ∨
      ∃ c, e = Ev.exec rp c ∧
        (c = "git status" ∨ c = "git add ." ∨ (∃ f, c = "git add " ++ f) ∨
         c = "git commit -m \"" ++ cm ++ "\"" ∨ c = "git push origin " ++ bn) := by
  intro e he
  rcases hs : stage_changes T w rp sf with ⟨sres, ws⟩
  have hstage : ∀ e2 ∈ ws.log, e2 ∈ w.log ∨ e2 = Ev.cd rp ∨
      ∃ c, e2 = Ev.exec rp c ∧
        (c = "git status" ∨ c = "git add ." ∨ (∃ f, c = "git add " ++ f) ∨
         c = "git commit -m \"" ++ cm ++ "\"" ∨ c = "git push origin " ++ bn) := by
    intro e2 he2
    have h2 := stage_changes_log T w rp sf e2 (by rw [hs]; exact he2)
    rcases h2 with h | h | ⟨c, hc, h⟩
    · exact Or.inl h
    · exact Or.inr (Or.inl h)
    · exact Or.inr (Or.inr ⟨c, hc, by tauto⟩)
  simp only [afterClone, hs] at he
  cases hss : sres.success <;> simp only [hss, if_true, if_false, Bool.false_eq_true] at he
  case false => exact hstage e he
  case true =>
    rcases hc : commit_changes T ws rp cm with ⟨cres, wc⟩
    simp only [hc] at he
    have hcommit : ∀ e2 ∈ wc.log, e2 ∈ w.log ∨ e2 = Ev.cd rp ∨
        ∃ c, e2 = Ev.exec rp c ∧
          (c = "git status" ∨ c = "git add ." ∨ (∃ f, c = "git add " ++ f) ∨
           c = "git commit -m \"" ++ cm ++ "\"" ∨ c = "git push origin " ++ bn) := by
      intro e2 he2
      have h2 := commit_changes_log T ws rp cm e2 (by rw [hc]; exact he2)
      rcases h2 with h | h | ⟨c, hcq, h⟩
      · exact hstage e2 h
      · exact Or.inr (Or.inl h)
      · exact Or.inr (Or.inr ⟨c, hcq, by tauto⟩)
    cases hcs : cres.success <;> simp only [hcs, if_true, if_false, Bool.false_eq_true] at he
    case false => exact hcommit e he
    case true =>
      rcases hp : push_changes T wc rp bn with ⟨pres, wp⟩
      simp only [hp] at he
      have hpush : e ∈ wp.log → e ∈ w.log ∨ e = Ev.cd rp ∨
          ∃ c, e = Ev.exec rp c ∧
            (c = "git status" ∨ c = "git add ." ∨ (∃ f, c = "git add " ++ f) ∨
             c = "git commit -m \"" ++ cm ++ "\"" ∨ c = "git push origin " ++ bn) := by
        intro he2
        have h2 := push_changes_log T wc rp bn e (by rw [hp]; exact he2)
        rcases h2 with h | h | h
        · exact hcommit e h
        · exact Or.inr (Or.inl h)
        · exact Or.inr (Or.inr ⟨_, h, by tauto⟩)
      cases hps : pres.success <;> simp only [hps, if_true, if_false, Bool.false_eq_true] at he
      case false => exact hpush he
      case true => exact hpush he

theorem afterClone_response (T : Terminal σ) (w : World σ) (g : GitConfigResult)
    (co : Option CloneResult) (rp : String) (ru : Option String)
    (sf : Option (List String)) (cm bn : String) :
    ((afterClone T w g co rp ru sf cm bn).1.message ≠ "Failed to clone repository") ∧
    (∀ c, (afterClone T w g co rp ru sf cm bn).1.details ≠ Details.clone c) ∧
    ((afterClone T w g co rp ru sf cm bn).1.status = 200 →
      ∃ s c2 p2, (afterClone T w g co rp ru sf cm bn).1.details = Details.full g co s c2 p2) := by
  rcases hs : stage_changes T w rp sf with ⟨sres, ws⟩
  simp only [afterClone, hs]
  cases hss : sres.success <;> simp only [if_true, if_false, Bool.false_eq_true]
  case false =>
    refine ⟨by decide, fun c => by simp, fun h => absurd h (by decide)⟩
  case true =>
    rcases hc : commit_changes T ws rp cm with ⟨cres, wc⟩
    simp only [hc]
    cases hcs : cres.success <;> simp only [if_true, if_false, Bool.false_eq_true]
    case false =>
      refine ⟨by decide, fun c => by simp, fun h => absurd h (by decide)⟩
    case true =>
      rcases hp : push_changes T wc rp bn with ⟨pres, wp⟩
      simp only [hp]
      cases hps : pres.success <;> simp only [if_true, if_false, Bool.false_eq_true]
      case false =>
        refine ⟨by decide, fun c => by simp, fun h => absurd h (by decide)⟩
      case true =>
        exact ⟨success_msg_ne_clone_fail _ _, fun c => by simp, fun _ => ⟨_, _, _, rfl⟩⟩


/- ## Shared step-behaviour lemmas -/

theorem commit_changes_no_changes_eq (T : Terminal σ) (w : World σ) (p m : String)
    (hfs : w.fs p = true) (r : ExecResult) (s2 : σ)
    (hex : T.execute p "git status" w.st = .ok (r, s2))
    (hmark : strContains r.stdout "nothing to commit" = true) :
    commit_changes T w p m =
      ({ success := true, action := some "no_changes",
         message := some "No changes to commit" },
       { fs := w.fs, cwd := p, st := s2,
         log := w.log ++ [Ev.cd p, Ev.exec p "git status"] }) := by
  simp [commit_changes, chdir, runCmd, hfs, hex, hmark, List.append_assoc]

theorem addFiles_noThrow (T : Terminal σ)
    (hT : ∀ cwd cmd s, ∃ r s2, T.execute cwd cmd s = .ok (r, s2)) :
    ∀ (files : List String) (w : World σ), ∃ rs w2,
      addFiles T w files = .ok (rs, w2) ∧
      rs.map (fun r => r.file) = files ∧
      w2.log = w.log ++ files.map (fun f => Ev.exec w.cwd ("git add " ++ f)) ∧
      w2.cwd = w.cwd ∧ w2.fs = w.fs := by
  intro files
  induction files with
  | nil => intro w; exact ⟨[], w, rfl, rfl, by simp, rfl, rfl⟩
  | cons f rest ih =>
    intro w
    obtain ⟨r, s1, hx⟩ := hT w.cwd ("git add " ++ f) w.st
    obtain ⟨rs, w2, ha, hmap, hlog, hcwd, hfs⟩ :=
      ih { w with st := s1, log := w.log ++ [Ev.exec w.cwd ("git add " ++ f)] }
    refine ⟨{ file := f, success := r.returncode == 0, output := r.stdout, error := if r.returncode != 0 then some r.stderr else none } :: rs, w2, ?_, ?_, ?_, hcwd, hfs⟩
    · simp only [addFiles, runCmd, hx, ha]
    · simp only [List.map_cons, hmap]
    · simp only at hlog
      rw [hlog]
      simp [List.append_assoc]

theorem withStatusOut_execute_ne (T : Terminal σ) (out cwd cmd : String) (s : σ)
    (h : cmd ≠ "git status") :
    (withStatusOut T out).execute cwd cmd s = T.execute cwd cmd s := by
  simp [withStatusOut, h]

theorem withStatusOut_execute_status (T : Terminal σ) (out cwd : String) (s : σ) :
    (withStatusOut T out).execute cwd "git status" s =
      match T.execute cwd "git status" s with
      | .ok (r, s2) => .ok ({ r with stdout := out }, s2)
      | .error e => .error e := by
  simp [withStatusOut]

theorem addFiles_withStatusOut (T : Terminal σ) (out : String) :
    ∀ (files : List String) (w : World σ),
      addFiles (withStatusOut T out) w files = addFiles T w files := by
  intro files
  induction files with
  | nil => intro w; rfl
  | cons f rest ih =>
    intro w
    have h2 : (withStatusOut T out).execute w.cwd ("git add " ++ f) w.st =
        T.execute w.cwd ("git add " ++ f) w.st :=
      withStatusOut_execute_ne T out w.cwd _ w.st (add_cmd_ne_status f)
    simp only [addFiles, runCmd, h2]
    rcases hx : T.execute w.cwd ("git add " ++ f) w.st with ex | ⟨r, s1⟩
    · rfl
    · simp only [ih]

theorem addFiles_log_append (T : Terminal σ) : ∀ (files : List String) (w : World σ),
    (∀ rs w2, addFiles T w files = .ok (rs, w2) → ∃ l, w2.log = w.log ++ l) ∧
    (∀ ms w2, addFiles T w files = .error (ms, w2) → ∃ l, w2.log = w.log ++ l) := by
  intro files
  induction files with
  | nil =>
    intro w
    constructor
    · intro rs w2 h
      cases h
      exact ⟨[], by simp⟩
    · intro ms w2 h
      cases h
  | cons f rest ih =>
    intro w
    constructor
    · intro rs w2 h
      rcases hx : T.execute w.cwd ("git add " ++ f) w.st with ex | ⟨r, s1⟩
      · simp only [addFiles, runCmd, hx] at h
        cases h
      · simp only [addFiles, runCmd, hx] at h
        rcases ha : addFiles T
            { w with st := s1, log := w.log ++ [Ev.exec w.cwd ("git add " ++ f)] } rest
          with ⟨ms3, w3⟩ | ⟨rs3, w3⟩
        · rw [ha] at h; cases h
        · rw [ha] at h
          cases h
          obtain ⟨l, hl⟩ := (ih _).1 _ _ ha
          exact ⟨Ev.exec w.cwd ("git add " ++ f) :: l, by simp only at hl; rw [hl]; simp⟩
    · intro ms w2 h
      rcases hx : T.execute w.cwd ("git add " ++ f) w.st with ex | ⟨r, s1⟩
      · simp only [addFiles, runCmd, hx] at h
        cases h
        exact ⟨[], by simp⟩
      · simp only [addFiles, runCmd, hx] at h
        rcases ha : addFiles T
            { w with st := s1, log := w.log ++ [Ev.exec w.cwd ("git add " ++ f)] } rest
          with ⟨ms3, w3⟩ | ⟨rs3, w3⟩
        · rw [ha] at h
          cases h
          obtain ⟨l, hl⟩ := (ih _).2 _ _ ha
          exact ⟨Ev.exec w.cwd ("git add " ++ f) :: l, by simp only at hl; rw [hl]; simp⟩
        · rw [ha] at h; cases h

theorem stage_changes_withStatusOut (T : Terminal σ) (w : World σ) (p : String)
    (sf : Option (List String)) (out : String) :
    stage_changes (withStatusOut T out) w p sf = stage_changes T w p sf := by
  by_cases hfs : w.fs p
  case neg => simp [stage_changes, chdir, hfs]
  case pos =>
    rcases hst : T.execute p "git status" w.st with es | ⟨r0, s0⟩
    · have h1 : (withStatusOut T out).execute p "git status" w.st = .error es := by
        rw [withStatusOut_execute_status, hst]
      simp [stage_changes, chdir, hfs, runCmd, hst, h1]
    · have h1 : (withStatusOut T out).execute p "git status" w.st =
          .ok ({ r0 with stdout := out }, s0) := by
        rw [withStatusOut_execute_status, hst]
      cases hl : listTruthy sf
      case false =>
        rcases hadd : T.execute p "git add ." s0 with ea | ⟨ra, sa⟩
        · have h2 : (withStatusOut T out).execute p "git add ." s0 = .error ea := by
            rw [withStatusOut_execute_ne T out p "git add ." s0 (by decide), hadd]
          simp [stage_changes, chdir, hfs, runCmd, hst, h1, hl, h2, hadd]
        · have h2 : (withStatusOut T out).execute p "git add ." s0 = .ok (ra, sa) := by
            rw [withStatusOut_execute_ne T out p "git add ." s0 (by decide), hadd]
          simp [stage_changes, chdir, hfs, runCmd, hst, h1, hl, h2, hadd]
      case true =>
        simp [stage_changes, chdir, hfs, runCmd, hst, h1, hl, addFiles_withStatusOut]

theorem stage_changes_status_first (T : Terminal σ) (w : World σ) (p : String)
    (sf : Option (List String)) (hfs : w.fs p = true) (r0 : ExecResult) (s0 : σ)
    (h0 : T.execute p "git status" w.st = .ok (r0, s0)) :
    ∃ rest, (stage_changes T w p sf).2.log =
      w.log ++ [Ev.cd p, Ev.exec p "git status"] ++ rest := by
  simp only [stage_changes, chdir, hfs, if_true, runCmd, h0]
  cases hl : listTruthy sf
  case false =>
    simp only [if_false, Bool.false_eq_true]
    rcases hadd : T.execute p "git add ." s0 with ea | ⟨ra, sa⟩ <;> simp only [runCmd, hadd]
    · exact ⟨[], by simp [List.append_assoc]⟩
    · exact ⟨[Ev.exec p "git add ."], by simp [List.append_assoc]⟩
  case true =>
    simp only [if_true]
    rcases ha : addFiles T
        { w with cwd := p, st := s0, log := w.log ++ [Ev.cd p] ++ [Ev.exec p "git status"] }
        (sf.getD [])
      with ⟨ms3, w3⟩ | ⟨rs3, w3⟩
    · obtain ⟨l, hl2⟩ := (addFiles_log_append T (sf.getD []) _).2 _ _ ha
      exact ⟨l, by simp only at hl2; rw [hl2]; simp [List.append_assoc]⟩
    · obtain ⟨l, hl2⟩ := (addFiles_log_append T (sf.getD []) _).1 _ _ ha
      exact ⟨l, by simp only at hl2; rw [hl2]; simp [List.append_assoc]⟩

/- ## The claims -/

/-- C1 (counterexample): the URL `https://github.com/u/my.github.io` has last
path segment `my.github.io`, which does not end in `".git"`, yet the source
derives `myhub.io` rather than the unchanged segment: `replace(".git", "")`
removes interior occurrences of `".git"`, not only a trailing suffix, so the
derived name differs from the spec's strip-one-trailing-suffix description. -/
theorem derivedName_strip_suffix_counterexample :
    lastSegment "https://github.com/u/my.github.io" = "my.github.io" ∧
    List.isSuffixOf ('.' :: 'g' :: 'i' :: 't' :: [])
      (lastSegmentChars "https://github.com/u/my.github.io") = false ∧
    derivedRepoName "https://github.com/u/my.github.io" = "myhub.io" ∧
    derivedRepoName "https://github.com/u/my.github.io" ≠
      specStripGitName "https://github.com/u/my.github.io" :=
  ⟨by decide, by decide, by decide, by decide⟩

/-- C1 (amended): the derived repository name is the URL's last path segment
with every left-to-right non-overlapping occurrence of `".git"` removed, not
only a trailing suffix.  In particular, when the last segment contains no
`".git"` at all the name is the segment unchanged, and when the segment is
`t ++ ".git"` with no occurrence of `".git"` inside `t` the name is `t`. -/
theorem derivedName_removes_every_git_occurrence (url : String) :
    (containsSub ('.' :: 'g' :: 'i' :: 't' :: []) (lastSegmentChars url) = false →
      derivedRepoName url = lastSegment url) ∧
    (∀ t : List Char, containsSub ('.' :: 'g' :: 'i' :: 't' :: []) t = false →
      lastSegmentChars url = t ++ '.' :: 'g' :: 'i' :: 't' :: [] →
      derivedRepoName url = String.mk t) := by
  constructor
  · intro h
    unfold derivedRepoName lastSegment
    rw [removeGit_of_not_sub _ h]
  · intro t ht hseg
    unfold derivedRepoName
    rw [hseg, removeGit_append_git _ ht]

/-- C1 (witness): a plain segment stays unchanged; a canonical `.git` URL
loses exactly its suffix. -/
theorem derivedName_removes_every_git_occurrence_witness :
    derivedRepoName "https://github.com/user/repo" =
      lastSegment "https://github.com/user/repo" ∧
    derivedRepoName "https://github.com/user/app.git" = String.mk ('a' :: 'p' :: 'p' :: []) :=
  ⟨(derivedName_removes_every_git_occurrence "https://github.com/user/repo").1 (by decide),
   (derivedName_removes_every_git_occurrence "https://github.com/user/app.git").2
     ('a' :: 'p' :: 'p' :: []) (by decide) (by decide)⟩

/-- C2: when the derived repository path exists, `clone_repository` changes
into it and runs exactly one `git pull` (never a clone), reporting
`action = "pulled"`; when it does not exist, it changes into the target
directory and runs exactly one `git clone`, reporting `action = "cloned"` —
stated as full result/world equalities whose trace shows the single command. -/
theorem clone_repository_pull_iff_path_exists (T : Terminal σ) (w : World σ)
    (repo_url directory : String) :
    (w.fs (pathJoin directory (derivedRepoName repo_url)) = true →
      ∀ r s2, T.execute (pathJoin directory (derivedRepoName repo_url)) "git pull" w.st =
          .ok (r, s2) →
        clone_repository T w repo_url directory =
          ({ success := r.returncode == 0, action := some "pulled",
             repo_path := some (pathJoin directory (derivedRepoName repo_url)),
             output := some r.stdout,
             error := if r.returncode != 0 then some r.stderr else none },
           { fs := (if w.fs directory then w else makedirs w directory).fs,
             cwd := pathJoin directory (derivedRepoName repo_url), st := s2,
             log := w.log ++ (if w.fs directory then [] else [Ev.mkdir directory]) ++
               [Ev.cd (pathJoin directory (derivedRepoName repo_url)),
                Ev.exec (pathJoin directory (derivedRepoName repo_url)) "git pull"] })) ∧
    (w.fs (pathJoin directory (derivedRepoName repo_url)) = false →
     pathJoin directory (derivedRepoName repo_url) ≠ directory →
      ∀ r s2, T.execute directory ("git clone " ++ repo_url) w.st = .ok (r, s2) →
        clone_repository T w repo_url directory =
          ({ success := r.returncode == 0, action := some "cloned",
             repo_path := some (pathJoin directory (derivedRepoName repo_url)),
             output := some r.stdout,
             error := if r.returncode != 0 then some r.stderr else none },
           { fs := (if w.fs directory then w else makedirs w directory).fs,
             cwd := directory, st := s2,
             log := w.log ++ (if w.fs directory then [] else [Ev.mkdir directory]) ++
               [Ev.cd directory, Ev.exec directory ("git clone " ++ repo_url)] })) := by
  constructor
  · intro hex r s2 hpull
    by_cases hd : w.fs directory
    · simp [clone_repository, makedirs, chdir, runCmd, hd, hex, hpull, List.append_assoc]
    · simp [clone_repository, makedirs, chdir, runCmd, hd, hex, hpull, List.append_assoc]
  · intro hnex hne r s2 hclone
    have hbeq : (pathJoin directory (derivedRepoName repo_url) == directory) = false :=
      beq_eq_false_iff_ne.mpr hne
    by_cases hd : w.fs directory
    · simp [clone_repository, makedirs, chdir, runCmd, hd, hnex, hbeq, hclone,
        List.append_assoc]
    · simp [clone_repository, makedirs, chdir, runCmd, hd, hnex, hbeq, hclone,
        List.append_assoc]

/-- C2 (witness): on a world where `/work/app` exists the step pulls; on a
world where it does not, the step clones. -/
theorem clone_repository_pull_iff_path_exists_witness :
    (clone_repository tGood wHome "https://example.com/org/app.git" "/work").1.action =
      some "pulled" ∧
    (clone_repository tGood wNoRepo "https://example.com/org/app.git" "/work").1.action =
      some "cloned" := by
  constructor
  · have h := (clone_repository_pull_iff_path_exists tGood wHome
      "https://example.com/org/app.git" "/work").1 (by decide) _ _ rfl
    rw [h]
  · have h := (clone_repository_pull_iff_path_exists tGood wNoRepo
      "https://example.com/org/app.git" "/work").2 (by decide) (by decide) _ _ rfl
    rw [h]

/-- C3: a request without `repo_url` only produces events from the original
working directory or the repository path `clone_directory` (every directory
change targets `clone_directory`, no `git pull` or `git clone` is ever run,
no directory is created), its response is never the clone-failure response,
and on success the clone slot of the report is the Skipped marker. -/
theorem github_push_no_url_direct_path (T : Terminal σ) (w : World σ)
    (req : PushRequest) (hurl : req.repo_url = none) :
    (∀ e ∈ (github_push T w req).2.log, e ∈ w.log ∨
        EvOkForDirect w.cwd (req.clone_directory.getD w.cwd) e) ∧
    (github_push T w req).1.message ≠ "Failed to clone repository" ∧
    (∀ c, (github_push T w req).1.details ≠ Details.clone c) ∧
    ((github_push T w req).1.status = 200 →
      ∃ g s cm pu, (github_push T w req).1.details = Details.full g none s cm pu) := by
  rcases hg : check_git_config T w with ⟨g, w1⟩
  have hglog : ∀ e ∈ w1.log, e ∈ w.log ∨
      EvOkForDirect w.cwd (req.clone_directory.getD w.cwd) e := by
    intro e he
    have h2 := check_git_config_log T w e (by rw [hg]; exact he)
    rcases h2 with h | ⟨c, rfl, hc⟩
    · exact Or.inl h
    · refine Or.inr ⟨Or.inl rfl, ?_, ?_⟩
      · rcases hc with rfl | rfl | rfl <;> decide
      · rcases hc with rfl | rfl | rfl <;> (apply ne_git_clone_cmd; decide)
  simp only [github_push, hg, hurl, optTruthy]
  cases hgc : g.is_configured <;> simp only [if_true, if_false, Bool.false_eq_true]
  case false =>
    exact ⟨fun e he => hglog e he, by decide, fun c => by simp, fun h => absurd h (by decide)⟩
  case true =>
    refine ⟨?_, (afterClone_response T w1 g none _ _ _ _ _).1,
      (afterClone_response T w1 g none _ _ _ _ _).2.1, ?_⟩
    · intro e he
      have h2 := afterClone_log T w1 g none _ _ _ _ _ e he
      rcases h2 with h | h | ⟨c, rfl, hc⟩
      · exact hglog e h
      · rw [h]; exact Or.inr rfl
      · refine Or.inr ⟨Or.inr rfl, ?_, ?_⟩
        · rcases hc with rfl | rfl | ⟨f, rfl⟩ | rfl | rfl
          · decide
          · decide
          · exact add_cmd_ne_pull f
          · exact commit_cmd_ne_pull _
          · exact push_cmd_ne_pull _
        · rcases hc with rfl | rfl | ⟨f, rfl⟩ | rfl | rfl
          · apply ne_git_clone_cmd; decide
          · apply ne_git_clone_cmd; decide
          · exact add_cmd_ne_clone f
          · exact commit_cmd_ne_clone _
          · exact push_cmd_ne_clone _
    · intro h
      obtain ⟨s, c2, p2, hd⟩ := (afterClone_response T w1 g none _ _ _ _ _).2.2 h
      exact ⟨g, s, c2, p2, hd⟩

/-- C3 (witness): a full happy-path request without `repo_url` against
`/repo`. -/
theorem github_push_no_url_direct_path_witness :
    (∀ e ∈ (github_push tGood wHome { clone_directory := some "/repo" }).2.log,
        e ∈ wHome.log ∨ EvOkForDirect "/home" "/repo" e) ∧
    (github_push tGood wHome { clone_directory := some "/repo" }).1.message ≠
      "Failed to clone repository" ∧
    (∀ c, (github_push tGood wHome { clone_directory := some "/repo" }).1.details ≠
      Details.clone c) ∧
    ((github_push tGood wHome { clone_directory := some "/repo" }).1.status = 200 →
      ∃ g s cm pu, (github_push tGood wHome { clone_directory := some "/repo" }).1.details =
        Details.full g none s cm pu) :=
  github_push_no_url_direct_path tGood wHome { clone_directory := some "/repo" } rfl

/-- C4: with a non-empty `specific_files` list (and a terminal that does not
raise), `stage_changes` produces one `git add` invocation per file (the trace
records one add event per listed file, in order, even when some adds exit
nonzero), the per-file results line up with the files, and the aggregate
`success` is true exactly when every individual add succeeded. -/
theorem stage_changes_specific_files_spec (T : Terminal σ) (w : World σ) (p : String)
    (files : List String) (hne : files ≠ []) (hfs : w.fs p = true)
    (hT : ∀ cwd cmd s, ∃ r s2, T.execute cwd cmd s = .ok (r, s2)) :
    ∃ rs w2, stage_changes T w p (some files) =
        ({ success := rs.all (fun r => r.success), action := some "staged_specific_files",
           files := some files, results := some rs }, w2) ∧
      rs.map (fun r => r.file) = files ∧
      w2.log = w.log ++ [Ev.cd p, Ev.exec p "git status"] ++
        files.map (fun f => Ev.exec p ("git add " ++ f)) ∧
      ((stage_changes T w p (some files)).1.success = true ↔ ∀ r ∈ rs, r.success = true) := by
  obtain ⟨r0, s0, h0⟩ := hT p "git status" w.st
  have hl : listTruthy (some files) = true := by
    cases files
    · exact absurd rfl hne
    · rfl
  obtain ⟨rs, w2, ha, hmap, hlog, hcwd, hfs2⟩ := addFiles_noThrow T hT files
    { w with cwd := p, st := s0, log := w.log ++ [Ev.cd p] ++ [Ev.exec p "git status"] }
  have heq : stage_changes T w p (some files) =
      ({ success := rs.all (fun r => r.success), action := some "staged_specific_files",
         files := some files, results := some rs }, w2) := by
    simp only [stage_changes, chdir, hfs, if_true, runCmd, h0, hl, Option.getD_some]
    rw [ha]
  refine ⟨rs, w2, heq, hmap, ?_, ?_⟩
  · simp only at hlog
    rw [hlog]
    simp [List.append_assoc]
  · rw [heq]
    simp [List.all_eq_true]

/-- C4 (witness): the spec's scenario `["a.py", "missing.txt"]` where only
`missing.txt` fails — the aggregate is false while `a.py`'s entry succeeds. -/
theorem stage_changes_specific_files_spec_witness :
    (stage_changes tAdd wHome "/repo" (some ("a.py" :: "missing.txt" :: []))).1.success =
      false ∧
    ((stage_changes tAdd wHome "/repo"
        (some ("a.py" :: "missing.txt" :: []))).1.results.getD []).map (fun r => r.success) =
      (true :: false :: []) ∧
    (∃ rs w2, stage_changes tAdd wHome "/repo" (some ("a.py" :: "missing.txt" :: [])) =
        ({ success := rs.all (fun r => r.success), action := some "staged_specific_files",
           files := some ("a.py" :: "missing.txt" :: []), results := some rs }, w2) ∧
      rs.map (fun r => r.file) = "a.py" :: "missing.txt" :: [] ∧
      w2.log = wHome.log ++ [Ev.cd "/repo", Ev.exec "/repo" "git status"] ++
        ("a.py" :: "missing.txt" :: []).map (fun f => Ev.exec "/repo" ("git add " ++ f)) ∧
      ((stage_changes tAdd wHome "/repo"
          (some ("a.py" :: "missing.txt" :: []))).1.success = true ↔
        ∀ r ∈ rs, r.success = true)) :=
  ⟨by decide, by decide,
   stage_changes_specific_files_spec tAdd wHome "/repo" ("a.py" :: "missing.txt" :: [])
     (by decide) (by decide) (fun cwd cmd s => ⟨_, _, rfl⟩)⟩

/-- C5: `specific_files = []` is Python-falsy, so `stage_changes` behaves
identically to an absent `specific_files` — the two calls are equal — and
that shared path is the stage-all path: one `git add .` invocation with
`action = "staged_all"`, not a no-op. -/
theorem stage_changes_empty_list_stages_all (T : Terminal σ) (w : World σ) (p : String) :
    stage_changes T w p (some []) = stage_changes T w p none ∧
    (w.fs p = true →
      ∀ r0 s0, T.execute p "git status" w.st = .ok (r0, s0) →
      ∀ ra sa, T.execute p "git add ." s0 = .ok (ra, sa) →
        stage_changes T w p (some []) =
          ({ success := ra.returncode == 0, action := some "staged_all",
             output := some ra.stdout,
             error := if ra.returncode != 0 then some ra.stderr else none },
           { fs := w.fs, cwd := p, st := sa,
             log := w.log ++ [Ev.cd p, Ev.exec p "git status", Ev.exec p "git add ."] })) := by
  constructor
  · rfl
  · intro hfs r0 s0 h0 ra sa ha
    simp [stage_changes, chdir, runCmd, listTruthy, hfs, h0, ha, List.append_assoc]

/-- C5 (witness): the empty-list call on a concrete world equals the absent
call and stages all. -/
theorem stage_changes_empty_list_stages_all_witness :
    stage_changes tGood wNoRepo "/work" (some []) = stage_changes tGood wNoRepo "/work" none ∧
    stage_changes tGood wNoRepo "/work" (some []) =
      ({ success := true, action := some "staged_all", output := some "out git add .",
         error := none },
       { fs := wNoRepo.fs, cwd := "/work", st := (),
         log := [Ev.cd "/work", Ev.exec "/work" "git status", Ev.exec "/work" "git add ."] }) :=
  ⟨(stage_changes_empty_list_stages_all tGood wNoRepo "/work").1,
   (stage_changes_empty_list_stages_all tGood wNoRepo "/work").2 (by decide) _ _ rfl _ _ rfl⟩

/-- C6: when the pre-commit `git status` output contains the
`"nothing to commit"` marker, `commit_changes` returns the successful
`no_changes` result and the final trace shows that no commit command ran —
only the directory change and the status query. -/
theorem commit_changes_no_changes_short_circuit (T : Terminal σ) (w : World σ) (p m : String)
    (hfs : w.fs p = true) (r : ExecResult) (s2 : σ)
    (hex : T.execute p "git status" w.st = .ok (r, s2))
    (hmark : strContains r.stdout "nothing to commit" = true) :
    commit_changes T w p m =
      ({ success := true, action := some "no_changes",
         message := some "No changes to commit" },
       { fs := w.fs, cwd := p, st := s2,
         log := w.log ++ [Ev.cd p, Ev.exec p "git status"] }) ∧
    (∀ e ∈ (commit_changes T w p m).2.log, e ∈ w.log ∨ e = Ev.cd p ∨
      e = Ev.exec p "git status") := by
  have heq := commit_changes_no_changes_eq T w p m hfs r s2 hex hmark
  refine ⟨heq, ?_⟩
  intro e he
  rw [heq] at he
  simp only [List.mem_append, List.mem_cons, List.mem_singleton, List.not_mem_nil] at he
  tauto

/-- C6 (witness): a clean-tree status short-circuits the commit. -/
theorem commit_changes_no_changes_short_circuit_witness :
    commit_changes (tStatus "nothing to commit, working tree clean") wNoRepo "/work" "msg" =
      ({ success := true, action := some "no_changes",
         message := some "No changes to commit" },
       { fs := wNoRepo.fs, cwd := "/work", st := (),
         log := [Ev.cd "/work", Ev.exec "/work" "git status"] }) :=
  (commit_changes_no_changes_short_circuit (tStatus "nothing to commit, working tree clean")
    wNoRepo "/work" "msg" (by decide) _ _ rfl (by decide)).1

/-- C7: commit is idempotent.  Over any terminal whose `git status` is pure
(returns without changing state) and whose `git commit` succeeds and leaves a
state on which status reports `"nothing to commit"` — the contract of a
working git — running `commit_changes` twice in a row with the same message
and no intervening changes makes the second invocation succeed with
`action = "no_changes"`, whatever the starting repository state was. -/
theorem commit_changes_idempotent (T : Terminal σ) (w : World σ) (p m : String)
    (hfs : w.fs p = true)
    (hstatus : ∀ cwd s, ∃ r, T.execute cwd "git status" s = .ok (r, s))
    (hcommit : ∀ cwd s, ∃ r s2,
      T.execute cwd ("git commit -m \"" ++ m ++ "\"") s = .ok (r, s2) ∧
      r.returncode = 0 ∧
      ∀ cwd2 r2 s3, T.execute cwd2 "git status" s2 = .ok (r2, s3) →
        strContains r2.stdout "nothing to commit" = true) :
    (commit_changes T ((commit_changes T w p m).2) p m).1.success = true ∧
    (commit_changes T ((commit_changes T w p m).2) p m).1.action = some "no_changes" := by
  obtain ⟨r0, h0⟩ := hstatus p w.st
  cases hm : strContains r0.stdout "nothing to commit"
  case true =>
    have h1 : (commit_changes T w p m).2 =
        { fs := w.fs, cwd := p, st := w.st,
          log := w.log ++ [Ev.cd p, Ev.exec p "git status"] } := by
      simp [commit_changes, chdir, runCmd, hfs, h0, hm, List.append_assoc]
    rw [h1]
    rw [commit_changes_no_changes_eq T
      { fs := w.fs, cwd := p, st := w.st,
        log := w.log ++ [Ev.cd p, Ev.exec p "git status"] } p m hfs r0 w.st h0 hm]
    exact ⟨rfl, rfl⟩
  case false =>
    obtain ⟨rc, s2, hc, hrc, hclean⟩ := hcommit p w.st
    have h1 : (commit_changes T w p m).2 =
        { fs := w.fs, cwd := p, st := s2,
          log := w.log ++ [Ev.cd p, Ev.exec p "git status",
            Ev.exec p ("git commit -m \"" ++ m ++ "\"")] } := by
      simp [commit_changes, chdir, runCmd, hfs, h0, hm, hc, List.append_assoc]
    rw [h1]
    obtain ⟨r2, h2⟩ := hstatus p s2
    have hm2 := hclean p r2 s2 h2
    rw [commit_changes_no_changes_eq T
      { fs := w.fs, cwd := p, st := s2,
        log := w.log ++ [Ev.cd p, Ev.exec p "git status",
          Ev.exec p ("git commit -m \"" ++ m ++ "\"")] } p m hfs r2 s2 h2 hm2]
    exact ⟨rfl, rfl⟩

/-- C7 (witness): on the dirty `tRepo` model the first call commits and the
second reports `no_changes`. -/
theorem commit_changes_idempotent_witness :
    (commit_changes tRepo ((commit_changes tRepo wRepo "/repo" "msg").2) "/repo" "msg").1.success
      = true ∧
    (commit_changes tRepo ((commit_changes tRepo wRepo "/repo" "msg").2) "/repo" "msg").1.action
      = some "no_changes" := by
  apply commit_changes_idempotent
  · decide
  · intro cwd s
    exact ⟨_, rfl⟩
  · intro cwd s
    refine ⟨_, false, rfl, rfl, ?_⟩
    intro cwd2 r2 s3 h
    cases h
    decide

/-- C8: when git identity is unset or empty (user.name or user.email missing
or blank after `strip()`), the whole request is rejected with the 400
configuration response carrying `is_configured = false`, and the final world
shows that only the three read-only config commands ran — no directory
change, no directory creation, no clone, stage, commit or push. -/
theorem github_push_unconfigured_rejected (T : Terminal σ) (w : World σ) (req : PushRequest)
    (rv : ExecResult) (s1 : σ) (rn : ExecResult) (s2 : σ) (re : ExecResult) (s3 : σ)
    (hv : T.execute w.cwd "git --version" w.st = .ok (rv, s1))
    (hv0 : rv.returncode = 0)
    (hn : T.execute w.cwd "git config user.name" s1 = .ok (rn, s2))
    (he : T.execute w.cwd "git config user.email" s2 = .ok (re, s3))
    (hbad : optTruthy (if rn.returncode = 0 then some (pyStrip rn.stdout) else none) = false ∨
            optTruthy (if re.returncode = 0 then some (pyStrip re.stdout) else none) = false) :
    github_push T w req =
      ({ status := 400, success := false,
         message := "Git is not properly configured. Please configure Git first.",
         details := Details.config
           { is_configured := false, git_installed := true,
             username := if rn.returncode = 0 then some (pyStrip rn.stdout) else none,
             email := if re.returncode = 0 then some (pyStrip re.stdout) else none } },
       { fs := w.fs, cwd := w.cwd, st := s3,
         log := w.log ++ [Ev.exec w.cwd "git --version", Ev.exec w.cwd "git config user.name",
           Ev.exec w.cwd "git config user.email"] }) := by
  rcases hbad with h | h <;>
    simp [github_push, check_git_config, runCmd, hv, hv0, hn, he, h, List.append_assoc]

/-- C8 (witness): unset email on `tNoEmail` yields the immediate 400 with
only the three config commands in the trace. -/
theorem github_push_unconfigured_rejected_witness :
    github_push tNoEmail wNoRepo { repo_url := some "https://example.com/org/app.git" } =
      ({ status := 400, success := false,
         message := "Git is not properly configured. Please configure Git first.",
         details := Details.config
           { is_configured := false, git_installed := true,
             username := some "out git config user.name", email := none } },
       { fs := wNoRepo.fs, cwd := "/home", st := (),
         log := [Ev.exec "/home" "git --version", Ev.exec "/home" "git config user.name",
           Ev.exec "/home" "git config user.email"] }) := by
  have h := github_push_unconfigured_rejected tNoEmail wNoRepo
    { repo_url := some "https://example.com/org/app.git" }
    (okOut "git --version") () (okOut "git config user.name") ()
    { returncode := 1, stdout := "", stderr := "" } ()
    rfl rfl rfl rfl (Or.inr (by decide))
  rw [h]
  rfl

/-- C9: each step function converts the exceptions its body can raise into a
structured failure result instead of propagating them: a raised
`terminal.execute` in the config check, a raised `git pull` in
clone-or-pull, a failed `os.chdir` in stage, a raised `git commit` in
commit, and a failed `os.chdir` in push all yield
`success`/`is_configured = false` with the exception message as the error
string. -/
theorem step_functions_catch_exceptions (T : Terminal σ) (w : World σ)
    (url dir p m b : String) (sf : Option (List String)) (msg : String) :
    (T.execute w.cwd "git --version" w.st = .error msg →
      check_git_config T w =
        ({ is_configured := false, git_installed := false, error := some msg }, w)) ∧
    (w.fs dir = true → w.fs (pathJoin dir (derivedRepoName url)) = true →
      T.execute (pathJoin dir (derivedRepoName url)) "git pull" w.st = .error msg →
      (clone_repository T w url dir).1 = { success := false, error := some msg }) ∧
    (w.fs p = false →
      stage_changes T w p sf = ({ success := false, error := some (noSuchFileMsg p) }, w)) ∧
    (w.fs p = true → ∀ r0 s0, T.execute p "git status" w.st = .ok (r0, s0) →
      strContains r0.stdout "nothing to commit" = false →
      T.execute p ("git commit -m \"" ++ m ++ "\"") s0 = .error msg →
      (commit_changes T w p m).1 = { success := false, error := some msg }) ∧
    (w.fs p = false →
      push_changes T w p b = ({ success := false, error := some (noSuchFileMsg p) }, w)) := by
  refine ⟨?_, ?_, ?_, ?_, ?_⟩
  · intro h
    simp [check_git_config, runCmd, h]
  · intro hd hex h
    simp [clone_repository, chdir, runCmd, hd, hex, h]
  · intro h
    simp [stage_changes, chdir, h]
  · intro hfs r0 s0 h0 hm h
    simp [commit_changes, chdir, runCmd, hfs, h0, hm, h]
  · intro h
    simp [push_changes, chdir, h]

/-- C9 (witness): the always-raising terminal and a missing path produce the
structured failures. -/
theorem step_functions_catch_exceptions_witness :
    ((tBoom.execute wNoRepo.cwd "git --version" wNoRepo.st = .error "boom") ∧
      check_git_config tBoom wNoRepo =
        ({ is_configured := false, git_installed := false, error := some "boom" }, wNoRepo)) ∧
    ((stage_changes tBoom wNoRepo "/nope" none).1 =
      { success := false, error := some (noSuchFileMsg "/nope") }) := by
  constructor
  · exact ⟨rfl,
      (step_functions_catch_exceptions tBoom wNoRepo "u" "/d" "/p" "m" "b" none "boom").1 rfl⟩
  · have h := (step_functions_catch_exceptions tBoom wNoRepo "u" "/d" "/nope" "m" "b"
      none "boom").2.2.1 (by decide)
    rw [h]

/-- C10 (counterexample): two terminals that differ only in what `git status`
prints lead `stage_changes` to identical results and identical traces, so
the status snapshot cannot be included in the returned step result — the
source computes `status_before` and then never uses it. -/
theorem stage_changes_snapshot_not_included_counterexample :
    ((tStatus "STATUS-A").execute "/work" "git status" () =
      .ok ({ returncode := 0, stdout := "STATUS-A", stderr := "" }, ())) ∧
    ((tStatus "STATUS-B").execute "/work" "git status" () =
      .ok ({ returncode := 0, stdout := "STATUS-B", stderr := "" }, ())) ∧
    ("STATUS-A" : String) ≠ "STATUS-B" ∧
    (stage_changes (tStatus "STATUS-A") wNoRepo "/work" none).1 =
      (stage_changes (tStatus "STATUS-B") wNoRepo "/work" none).1 ∧
    (stage_changes (tStatus "STATUS-A") wNoRepo "/work" none).2.log =
      (stage_changes (tStatus "STATUS-B") wNoRepo "/work" none).2.log :=
  ⟨rfl, rfl, by decide, by decide, by decide⟩

/-- C10 (amended): `stage_changes` takes the status snapshot (after the
directory change, the first command in the trace is `git status`) but
discards it — overriding what `git status` prints changes nothing about the
step's result, its success, or the final world. -/
theorem stage_changes_snapshot_discarded (T : Terminal σ) (w : World σ) (p : String)
    (sf : Option (List String)) (out : String) :
    stage_changes (withStatusOut T out) w p sf = stage_changes T w p sf ∧
    (w.fs p = true → ∀ r0 s0, T.execute p "git status" w.st = .ok (r0, s0) →
      ∃ rest, (stage_changes T w p sf).2.log =
        w.log ++ [Ev.cd p, Ev.exec p "git status"] ++ rest) :=
  ⟨stage_changes_withStatusOut T w p sf out,
   fun hfs r0 s0 h0 => stage_changes_status_first T w p sf hfs r0 s0 h0⟩

/-- C10 (witness): overriding the snapshot output on a concrete world leaves
the call unchanged, and the snapshot command is in the trace. -/
theorem stage_changes_snapshot_discarded_witness :
    stage_changes (withStatusOut (tStatus "SNAP") "OTHER") wNoRepo "/work" none =
      stage_changes (tStatus "SNAP") wNoRepo "/work" none ∧
    ∃ rest, (stage_changes (tStatus "SNAP") wNoRepo "/work" none).2.log =
      wNoRepo.log ++ [Ev.cd "/work", Ev.exec "/work" "git status"] ++ rest :=
  ⟨(stage_changes_snapshot_discarded (tStatus "SNAP") wNoRepo "/work" none "OTHER").1,
   (stage_changes_snapshot_discarded (tStatus "SNAP") wNoRepo "/work" none "OTHER").2
     (by decide) _ _ rfl⟩
